import Mathlib

/-!
Formal model of the vector-search subsystem of the bustub_vector repository:
the distance kernel (vector_expression.h), the IVFFlat index
(src/storage/index/ivfflat_index.cpp), the HNSW index
(src/storage/index/hnsw_index.cpp) and the vector-index-scan optimizer rule
(src/optimizer/vector_index_scan.cpp).

Modelling conventions:
- C++ `double` is idealised as the real numbers; comparisons between reals use
  classical decidability, so several definitions are `noncomputable` even
  though the C++ code is executable.
- Real division in Lean is total with x / 0 = 0, while IEEE double division
  yields NaN or an infinity; the one place this matters (the cosine branch of
  `ComputeDistance` at a zero norm) is analysed explicitly by the theorems for
  the relevant claim rather than hidden in the definition.
- C++ `(int)` casts of doubles truncate toward zero (`truncToInt`).
- Out-of-bounds container reads, which are undefined behaviour in C++, are
  modelled as `Option` failures (`none`) in the operations that can perform
  them.
- `std::priority_queue` is modelled as a list kept sorted by the comparator's
  key, with `top` the comparator-maximal end; ties between equal keys sit in
  an unspecified order in the C++ heap, and the model fixes one such order.
- `std::sort` is modelled as `List.mergeSort` with the comparator closed into
  a total boolean relation; `std::sort` is unstable, so the order of
  equal-keyed elements is again one fixed choice of the unspecified ones.
-/

namespace BusTub

abbrev Vec := List ℝ

abbrev RID := ℕ

/-- Distance function selector, `VectorExpressionType` of vector_expression.h. -/
inductive VectorExpressionType
  | L2Dist
  | InnerProduct
  | CosineSimilarity

/-- Accumulator loop of the L2 branch of `ComputeDistance`
(vector_expression.h lines 42-47): `distance += pow(left[i] - right[i], 2)`. -/
def l2SqSum (left right : Vec) : ℝ :=
  (left.zip right).foldl (fun acc p => acc + (p.1 - p.2) ^ 2) 0

/-- Accumulator loop shared by the inner-product and cosine branches of
`ComputeDistance`: `distance += left[i] * right[i]`. -/
def innerSum (left right : Vec) : ℝ :=
  (left.zip right).foldl (fun acc p => acc + p.1 * p.2) 0

/-- Accumulator `left_distance += pow(left[i], 2)` (and symmetrically
`right_distance`) of the cosine branch of `ComputeDistance`. -/
def sqSum (v : Vec) : ℝ :=
  v.foldl (fun acc x => acc + x ^ 2) 0

/-- `ComputeDistance` of vector_expression.h (lines 32-77).  The C++ function
asserts `left.size() == right.size()` before the loops, so the model is only
ever applied to equal-length operands (the zipped folds then coincide with
the C++ loops).  The cosine branch computes
`1 - distance / sqrt(left_distance * right_distance)` with no zero-norm
guard; in this real-valued model a zero denominator makes the quotient 0
(Lean's total division), where IEEE doubles would produce NaN — the claim
about the zero-norm case is analysed against the denominator explicitly. -/
noncomputable def ComputeDistance (left right : Vec) (dist_fn : VectorExpressionType) : ℝ :=
  match dist_fn with
  | .L2Dist => Real.sqrt (l2SqSum left right)
  | .InnerProduct => -1 * innerSum left right
  | .CosineSimilarity =>
      1 - innerSum left right / Real.sqrt (sqSum left * sqSum right)

/-- C++ truncation of a `double` to `int`: toward zero. -/
noncomputable def truncToInt (x : ℝ) : ℤ :=
  if 0 ≤ x then ⌊x⌋ else ⌈x⌉

/-! ## IVFFlat index (ivfflat_index.cpp / ivfflat_index.h)

The index state is the data members of `IVFFlatIndex` (ivfflat_index.h lines
63-83) plus the metric stored by the `VectorIndex` base.  `BuildIndex` and
`RandomSample` draw on a PRNG seeded from system entropy and are not needed by
the claims below; the deterministic core they share, `FindCentroid` /
`FindCentroids`, is modelled in full. -/

structure IVFFlatIndex where
  lists_ : ℕ
  probe_lists_ : ℕ
  /-- metric given at construction, stored by the `VectorIndex` base class. -/
  distance_fn_ : VectorExpressionType
  centroids_ : List Vec
  centroids_buckets_ : List (List (Vec × RID))

/-- `VectorAdd` (ivfflat_index.cpp lines 75-79): componentwise `a[i] += b[i]`
over the indices of `a` (both operands always have the index dimension). -/
def VectorAdd (a b : Vec) : Vec :=
  (a.zip b).map fun p => p.1 + p.2

/-- `VectorScalarDiv` (ivfflat_index.cpp lines 84-88): `y /= x` for every
component.  The C++ call sites can pass `x = 0` (a bucket with no assigned
points), where IEEE division yields an infinity or NaN; this model's total
division yields 0 — either way, not the previous centroid value. -/
noncomputable def VectorScalarDiv (a : Vec) (x : ℝ) : Vec :=
  a.map (· / x)

/-- `FindCentroid` (ivfflat_index.cpp lines 97-107), exactly as written:
`min_index` starts at -1, `min_distance` is an `int` starting at 0, the loop
updates whenever `min_distance < ComputeDistance(...)` (so it chases the
larger distance, truncated to `int` at every update), and `min_index` is
returned (still -1 when no distance exceeded 0). -/
noncomputable def FindCentroid (vec : Vec) (centroids : List Vec)
    (dist_fn : VectorExpressionType) : ℤ :=
  (centroids.enum.foldl
    (fun st ic =>
      if (st.2 : ℝ) < ComputeDistance vec ic.2 dist_fn then
        ((ic.1 : ℤ), truncToInt (ComputeDistance vec ic.2 dist_fn))
      else st)
    (-1, 0)).1

/-- `FindCentroids` (ivfflat_index.cpp lines 116-132): `res` starts as a copy
of the current centroids; every data point is assigned by `FindCentroid`
against the partially-updated `res` and added into `res[index]`
(`VectorAdd`), with `count[index]++`; then every slot except index 0
(`if (i == 0) continue;`) is divided by its count.  An assignment index
outside the centroid array (possible since `FindCentroid` can return -1) is
undefined behaviour, modelled as `none`. -/
noncomputable def FindCentroids (data : List (Vec × RID)) (centroids : List Vec)
    (dist_fn : VectorExpressionType) : Option (List Vec) := do
  let st ← data.foldlM
    (fun (st : List Vec × List ℕ) it => do
      let index := FindCentroid it.1 st.1 dist_fn
      if 0 ≤ index ∧ index.toNat < st.1.length then
        let i := index.toNat
        some (st.1.set i (VectorAdd (st.1.getD i []) it.1),
              st.2.set i (st.2.getD i 0 + 1))
      else none)
    (centroids, List.replicate centroids.length 0)
  some (st.1.enum.map fun ic =>
    if ic.1 = 0 then ic.2 else VectorScalarDiv ic.2 ((st.2.getD ic.1 0 : ℕ) : ℝ))

/-- `IVFFlatIndex::InsertVectorEntry` (ivfflat_index.cpp lines 166-169): the
bucket index comes from `FindCentroid` with the hard-coded
`VectorExpressionType::L2Dist`, and `(key, rid)` is appended to that bucket.
An out-of-range index (including the -1 `FindCentroid` can return) is
undefined behaviour, modelled as `none`. -/
noncomputable def IVFFlatIndex.InsertVectorEntry (st : IVFFlatIndex) (key : Vec)
    (rid : RID) : Option IVFFlatIndex :=
  let idx := FindCentroid key st.centroids_ VectorExpressionType.L2Dist
  if 0 ≤ idx ∧ idx.toNat < st.centroids_buckets_.length then
    some { st with
      centroids_buckets_ :=
        st.centroids_buckets_.set idx.toNat
          ((st.centroids_buckets_.getD idx.toNat []) ++ [(key, rid)]) }
  else none

/-- Comparator of `std::sort` on `std::pair<double, size_t>`
(ivfflat_index.cpp line 187): lexicographic, closed into a total relation. -/
noncomputable def pairLe (a b : ℝ × ℕ) : Bool :=
  decide (a.1 < b.1 ∨ (a.1 = b.1 ∧ a.2 ≤ b.2))

/-- `IVFFlatIndex::FindNearestCentroids` (ivfflat_index.cpp lines 177-196):
distances of `base_vector` to every centroid under the hard-coded
`VectorExpressionType::L2Dist`, sorted ascending, first `num_centroids`
indices. -/
noncomputable def IVFFlatIndex.FindNearestCentroids (st : IVFFlatIndex)
    (base_vector : Vec) (num_centroids : ℕ) : List ℕ :=
  let distances := st.centroids_.enum.map fun ic =>
    (ComputeDistance base_vector ic.2 VectorExpressionType.L2Dist, ic.1)
  ((distances.mergeSort pairLe).take num_centroids).map (·.2)

/-- Comparator of `std::sort` in `IVFFlatIndex::ScanVectorKey`
(ivfflat_index.cpp lines 222-225): `a.first < b.first`, closed into the total
relation on the distance component. -/
noncomputable def distLe (a b : ℝ × RID) : Bool :=
  decide (a.1 ≤ b.1)

/-- The `local_results` vector of `IVFFlatIndex::ScanVectorKey`
(ivfflat_index.cpp lines 211-219): for every entry of every probed bucket,
the pair of its distance to `base_vector` — under the hard-coded
`VectorExpressionType::L2Dist` — and its RID, in bucket-scan order. -/
noncomputable def IVFFlatIndex.localResults (st : IVFFlatIndex) (base_vector : Vec) :
    List (ℝ × RID) :=
  (st.FindNearestCentroids base_vector st.probe_lists_).flatMap fun ci =>
    (st.centroids_buckets_.getD ci []).map fun e =>
      (ComputeDistance base_vector e.1 VectorExpressionType.L2Dist, e.2)

/-- The `local_results` vector after the `std::sort` call of
`IVFFlatIndex::ScanVectorKey` (ivfflat_index.cpp lines 221-225). -/
noncomputable def IVFFlatIndex.sortedLocalResults (st : IVFFlatIndex)
    (base_vector : Vec) : List (ℝ × RID) :=
  (st.localResults base_vector).mergeSort distLe

/-- `IVFFlatIndex::ScanVectorKey` (ivfflat_index.cpp lines 204-233): probe the
`probe_lists_` nearest centroids, collect `local_results`, sort by distance,
return the RIDs of the first `min(limit, |local_results|)` entries.  The
method writes no data member, which the explicit state passing records by
returning the state alongside the result. -/
noncomputable def IVFFlatIndex.ScanVectorKey (st : IVFFlatIndex) (base_vector : Vec)
    (limit : ℕ) : IVFFlatIndex × List RID :=
  let sorted := st.sortedLocalResults base_vector
  (st, ((sorted.take (min limit sorted.length)).map (·.2)))

/-! ## Helper facts about concrete square roots and the distance kernel -/

lemma sqrt_nine : Real.sqrt 9 = 3 := by
  rw [show (9 : ℝ) = 3 ^ 2 by norm_num, Real.sqrt_sq (by norm_num)]

lemma sqrt_twentyfive : Real.sqrt 25 = 5 := by
  rw [show (25 : ℝ) = 5 ^ 2 by norm_num, Real.sqrt_sq (by norm_num)]

lemma sqrt_sixteen : Real.sqrt 16 = 4 := by
  rw [show (16 : ℝ) = 4 ^ 2 by norm_num, Real.sqrt_sq (by norm_num)]

lemma sqrt_eightyone : Real.sqrt 81 = 9 := by
  rw [show (81 : ℝ) = 9 ^ 2 by norm_num, Real.sqrt_sq (by norm_num)]

lemma cd_l2_1_0 : ComputeDistance [1] [0] .L2Dist = 1 := by
  simp [ComputeDistance, l2SqSum]

lemma cd_l2_1_4 : ComputeDistance [1] [4] .L2Dist = 3 := by
  simp [ComputeDistance, l2SqSum]
  rw [show ((1 : ℝ) - 4) ^ 2 = 3 ^ 2 by norm_num, Real.sqrt_sq (by norm_num)]

lemma cd_l2_5_0 : ComputeDistance [5] [0] .L2Dist = 5 := by
  simp [ComputeDistance, l2SqSum]

lemma cd_l2_5_4 : ComputeDistance [5] [4] .L2Dist = 1 := by
  simp [ComputeDistance, l2SqSum]
  norm_num

/-! ## C4: insertion chooses a bucket via the defective FindCentroid -/

/-- Failing input for claim C4: two centroids at distance 1 and 3 from the
key; the nearest is centroid 0. -/
noncomputable def c4State : IVFFlatIndex :=
  { lists_ := 2, probe_lists_ := 2, distance_fn_ := .L2Dist,
    centroids_ := [[0], [4]], centroids_buckets_ := [[], []] }

/-- Claim C4 (code_bug): `InsertVectorEntry` does not append to the bucket of
the nearest centroid.  With centroids `[0]` and `[4]` and key `[1]`, centroid
0 is strictly nearer (distance 1 against 3), yet the pair is appended to
bucket 1: `FindCentroid` updates whenever the running `int` bound is
exceeded, so it chases the farther centroid. -/
theorem c4_insert_appends_to_farthest_bucket :
    ComputeDistance [1] [0] VectorExpressionType.L2Dist <
      ComputeDistance [1] [4] VectorExpressionType.L2Dist ∧
    c4State.InsertVectorEntry [1] 42 =
      some { c4State with centroids_buckets_ := [[], [([1], 42)]] } := by
  constructor
  · rw [cd_l2_1_0, cd_l2_1_4]; norm_num
  · simp [IVFFlatIndex.InsertVectorEntry, FindCentroid, List.enum,
      cd_l2_1_0, cd_l2_1_4, truncToInt, c4State]

/-! ## C5: one Lloyd refinement step on a concrete input -/

/-- Claim C5 (code_bug): one `FindCentroids` step on centroids `[0]`, `[4]`
and the single data point `[5]`.  The point's nearest centroid is centroid 1
(distance 1 against 5), but the defective `FindCentroid` assigns it to
centroid 0; slot 0 is then excluded from the division loop, so it keeps the
accumulated sum `[5]` instead of a mean; and slot 1, which attracted zero
points, is divided by zero (`[4] / 0`, an infinity in IEEE, 0 in this model)
instead of retaining its previous value `[4]`. -/
theorem c5_lloyd_step_diverges :
    ComputeDistance [5] [4] VectorExpressionType.L2Dist <
      ComputeDistance [5] [0] VectorExpressionType.L2Dist ∧
    FindCentroids [([5], 0)] [[0], [4]] VectorExpressionType.L2Dist =
      some [[5], [0]] := by
  constructor
  · rw [cd_l2_5_0, cd_l2_5_4]; norm_num
  · simp [FindCentroids, FindCentroid, List.enum, cd_l2_5_0, cd_l2_5_4,
      truncToInt, VectorAdd, VectorScalarDiv]

/-! ## C3: every IVFFlat operation hard-codes L2Dist -/

/-- Failing input for claim C3: an IVFFlat index created with the
`InnerProduct` metric. -/
noncomputable def c3State : IVFFlatIndex :=
  { lists_ := 1, probe_lists_ := 1, distance_fn_ := .InnerProduct,
    centroids_ := [[0]], centroids_buckets_ := [[([1], 0), ([10], 1)]] }

/-- Claim C3 (code_bug): scanning an index created with the `InnerProduct`
metric returns the L2-nearest entry (RID 0) even though under the index's own
metric the other entry is strictly nearer (inner-product distance -10 against
-1) — every distance call in ivfflat_index.cpp passes the hard-coded
`VectorExpressionType::L2Dist`, ignoring `distance_fn_`; accordingly (last
two conjuncts) scan and insert give the same answers whatever metric the
index stores. -/
theorem c3_scan_ignores_index_metric :
    c3State.distance_fn_ = VectorExpressionType.InnerProduct ∧
    ComputeDistance [1] [10] VectorExpressionType.InnerProduct <
      ComputeDistance [1] [1] VectorExpressionType.InnerProduct ∧
    (c3State.ScanVectorKey [1] 1).2 = [0] ∧
    (∀ (st : IVFFlatIndex) (fn : VectorExpressionType) (q : Vec) (k : ℕ),
      (({ st with distance_fn_ := fn }).ScanVectorKey q k).2 =
        (st.ScanVectorKey q k).2) ∧
    (∀ (st : IVFFlatIndex) (fn : VectorExpressionType) (key : Vec) (rid : RID),
      (({ st with distance_fn_ := fn }).InsertVectorEntry key rid).map
          (fun st2 : IVFFlatIndex => st2.centroids_buckets_) =
        (st.InsertVectorEntry key rid).map
          (fun st2 : IVFFlatIndex => st2.centroids_buckets_)) := by
  refine ⟨rfl, ?_, ?_, fun st fn q k => ?_, fun st fn key rid => ?_⟩
  · simp [ComputeDistance, innerSum]
  · simp [IVFFlatIndex.ScanVectorKey, IVFFlatIndex.sortedLocalResults,
      IVFFlatIndex.localResults,
      IVFFlatIndex.FindNearestCentroids, List.enum, c3State,
      ComputeDistance, l2SqSum, distLe, List.mergeSort, List.merge]
  · simp [IVFFlatIndex.ScanVectorKey, IVFFlatIndex.sortedLocalResults,
      IVFFlatIndex.localResults, IVFFlatIndex.FindNearestCentroids]
  · simp [IVFFlatIndex.InsertVectorEntry]

/-! ## HNSW index (hnsw_index.cpp)

The class `NSW` is declared in hnsw_index.h, which is not among the
repository's files; its fields (`in_vertices_`, `edges_`, `dist_fn_`,
`m_max_`, and a reference to the shared vertex table) are reconstructed from
their uses in hnsw_index.cpp, and the shared vertex table is passed to the
operations explicitly.  `edges_` is an `unordered_map<size_t,
vector<size_t>>` whose `operator[]` default-constructs a missing entry, so it
is modelled as a total function defaulting to `[]`. -/

structure NSW where
  in_vertices_ : List ℕ
  edges_ : ℕ → List ℕ
  dist_fn_ : VectorExpressionType
  m_max_ : ℕ

/-- Modelled from the spec: `NSW::DefaultEntryPoint`, whose definition is in
the missing hnsw_index.h.  The spec makes a layer's entry point "any vertex
in that layer (conventionally the first inserted one)"; an empty layer has no
entry point (the C++ read would be out of bounds), hence `Option`. -/
def NSW.DefaultEntryPoint (nsw : NSW) : Option ℕ :=
  nsw.in_vertices_.head?

/-- DBL_MIN: `std::numeric_limits<double>::min()`, the initial
`max_result_dist` of `NSW::SearchLayer` (hnsw_index.cpp line 130) — the
smallest positive normal double, not negative infinity. -/
noncomputable def dblMin : ℝ := 1 / 2 ^ 1022

/-- DBL_MAX: `std::numeric_limits<double>::max()`, the initial
`min_candidate_dist` (hnsw_index.cpp line 131). -/
noncomputable def dblMax : ℝ := 2 ^ 1024 - 2 ^ 971

/-- On every concrete input below the distances stay below 10, so the initial
DBL_MAX in the running minimum disappears at once. -/
lemma min_dblMax_eq {x : ℝ} (h : x ≤ 10) : min dblMax x = x :=
  min_eq_right (h.trans (by norm_num [dblMax]))

/-- Heap order used throughout: ascending by the distance component. -/
noncomputable def distOrder (a b : ℝ × ℕ) : Prop := a.1 ≤ b.1

noncomputable instance : DecidableRel distOrder :=
  fun a b => inferInstanceAs (Decidable (a.1 ≤ b.1))

/-- `SelectNeighbors` (hnsw_index.cpp lines 87-115).  The comparator `cmp`
puts `left` before `right` when `dist_left > dist_right`, so the top of the
`priority_queue` is the id nearest to `vec`; pushing every id and popping the
top whenever the size exceeds `m` therefore retains the `m` farthest ids, and
the extraction loop lists the retained ids by ascending distance.  The heap
is modelled as a list sorted ascending by distance whose head is the top.
Reading `vertices[id]` out of bounds is undefined behaviour, hence `none`. -/
noncomputable def SelectNeighbors (vec : Vec) (vertex_ids : List ℕ)
    (vertices : List Vec) (m : ℕ) (dist_fn : VectorExpressionType) :
    Option (List ℕ) := do
  let weighted ← vertex_ids.mapM fun id => do
    let v ← vertices.get? id
    some (ComputeDistance vec v dist_fn, id)
  let heap := weighted.foldl
    (fun (heap : List (ℝ × ℕ)) e =>
      let pushed := List.orderedInsert distOrder e heap
      if pushed.length > m then pushed.tail else pushed)
    []
  some (heap.map (·.2))

/-- Mutable locals of `NSW::SearchLayer` (hnsw_index.cpp lines 126-131):
`candidate_queue` is a plain FIFO `std::queue`; `result_set` is a max-heap on
distance (`CompareByDistance` is `a.first < b.first`), modelled as a list
sorted ascending by distance whose top is the last element. -/
structure SLState where
  queue : List ℕ
  result : List (ℝ × ℕ)
  visited : List ℕ
  maxResultDist : ℝ
  minCandidateDist : ℝ

/-- Seed loop of `NSW::SearchLayer` (lines 134-144): every entry point is
pushed to the queue and the result heap and marked visited (without a
visited check and without eviction); `max_result_dist` is refreshed from the
heap top whenever the heap size equals `limit`. -/
noncomputable def seedEntryPoint (vertices : List Vec) (dist_fn : VectorExpressionType)
    (base : Vec) (limit : ℕ) (st : SLState) (ep : ℕ) : Option SLState := do
  let v ← vertices.get? ep
  let dist := ComputeDistance base v dist_fn
  let result1 := List.orderedInsert distOrder (dist, ep) st.result
  let maxR ← if result1.length = limit then (result1.getLast?).map (·.1)
             else some st.maxResultDist
  some { queue := st.queue ++ [ep], result := result1,
         visited := st.visited ++ [ep], maxResultDist := maxR,
         minCandidateDist := min st.minCandidateDist dist }

/-- Body of the neighbor loop of `NSW::SearchLayer` (lines 156-172): skip a
visited neighbor; otherwise mark it visited, push it to the FIFO queue, admit
it to the result heap, pop the farthest when the heap exceeds `limit`,
refresh `max_result_dist` from the top when the heap size equals `limit`
(`result_set.top()` on an empty heap — reachable when `limit = 0` — is
undefined behaviour, hence `none`), and lower `min_candidate_dist`. -/
noncomputable def processNeighbor (vertices : List Vec) (dist_fn : VectorExpressionType)
    (base : Vec) (limit : ℕ) (st : SLState) (neighbor : ℕ) : Option SLState :=
  if neighbor ∈ st.visited then some st
  else do
    let v ← vertices.get? neighbor
    let dist := ComputeDistance base v dist_fn
    let result1 := List.orderedInsert distOrder (dist, neighbor) st.result
    let result2 := if limit < result1.length then result1.dropLast else result1
    let maxR ← if result2.length = limit then (result2.getLast?).map (·.1)
               else some st.maxResultDist
    some { queue := st.queue ++ [neighbor], result := result2,
           visited := st.visited ++ [neighbor], maxResultDist := maxR,
           minCandidateDist := min st.minCandidateDist dist }

/-- Greedy loop of `NSW::SearchLayer` (lines 147-178): pop the FIFO front,
restrict its adjacency through `SelectNeighbors(..., limit, ...)`, process
those neighbors, and break once the result heap is full and
`min_candidate_dist > max_result_dist`.  The fuel argument only bounds the
iteration count (each iteration pops one queue entry and every queue entry
stems from one visited vertex, so the fuel passed by `NSW.SearchLayer` is
never exhausted on inputs the C++ loop leaves). -/
noncomputable def searchLayerLoop (edges : ℕ → List ℕ) (vertices : List Vec)
    (dist_fn : VectorExpressionType) (base : Vec) (limit : ℕ) :
    ℕ → SLState → Option (List (ℝ × ℕ))
  | 0, _ => none
  | fuel + 1, st =>
    match st.queue with
    | [] => some st.result
    | curr :: rest => do
      let nearest ← SelectNeighbors base (edges curr) vertices limit dist_fn
      let st1 ← nearest.foldlM (processNeighbor vertices dist_fn base limit)
        { st with queue := rest }
      if st1.result.length = limit ∧ st1.maxResultDist < st1.minCandidateDist then
        some st1.result
      else
        searchLayerLoop edges vertices dist_fn base limit fuel st1

/-- `NSW::SearchLayer` (hnsw_index.cpp lines 124-189): seed from the entry
points, run the greedy loop, and return the heap members by ascending
distance (the C++ pops the farthest first and reverses; on the sorted-list
model that is the list itself), keeping only the vertex ids. -/
noncomputable def NSW.SearchLayer (nsw : NSW) (vertices : List Vec) (base_vector : Vec)
    (limit : ℕ) (entry_points : List ℕ) : Option (List ℕ) := do
  let st0 : SLState := { queue := [], result := [], visited := [],
                         maxResultDist := dblMin, minCandidateDist := dblMax }
  let st ← entry_points.foldlM (seedEntryPoint vertices nsw.dist_fn_ base_vector limit) st0
  let result ← searchLayerLoop nsw.edges_ vertices nsw.dist_fn_ base_vector limit
    (entry_points.length + vertices.length + 1) st
  some (result.map (·.2))

/-- Distance of a vertex id to the query, used by the spec-modelled search
(the claim presupposes well-formed ids, so the lookup defaults). -/
noncomputable def specDist (vertices : List Vec) (dist_fn : VectorExpressionType)
    (base : Vec) (id : ℕ) : ℝ :=
  ComputeDistance base (vertices.getD id []) dist_fn

/-- Modelled from the spec, for claim C1: one step state of the layer-local
greedy search the spec describes — a candidate MIN-heap (sorted ascending,
top = head) and a result max-heap of size at most `ef` (sorted ascending,
farthest = last). -/
noncomputable def searchLayerSpecLoop (edges : ℕ → List ℕ) (vertices : List Vec)
    (dist_fn : VectorExpressionType) (base : Vec) (ef : ℕ) :
    ℕ → List (ℝ × ℕ) → List (ℝ × ℕ) → List ℕ → List (ℝ × ℕ)
  | 0, _, result, _ => result
  | fuel + 1, cands, result, visited =>
    match cands with
    | [] => result
    | (d, c) :: rest =>
      if result.length = ef ∧ (result.getLast?.map (·.1)).getD 0 < d then result
      else
        let step := (edges c).foldl
          (fun (acc : List (ℝ × ℕ) × List (ℝ × ℕ) × List ℕ) nbr =>
            if nbr ∈ acc.2.2 then acc
            else
              let dn := specDist vertices dist_fn base nbr
              let cands2 := List.orderedInsert distOrder (dn, nbr) acc.1
              let res1 := List.orderedInsert distOrder (dn, nbr) acc.2.1
              let res2 := if ef < res1.length then res1.dropLast else res1
              (cands2, res2, acc.2.2 ++ [nbr]))
          (rest, result, visited)
        searchLayerSpecLoop edges vertices dist_fn base ef fuel step.1 step.2.1 step.2.2

/-- Modelled from the spec, for claim C1: the layer-local greedy search as the
claim states it.  Seed: push every entry point to the candidate queue and the
result heap and mark it visited.  Loop: pop the candidate nearest to the
query; stop when the result heap is full (size = ef) and that candidate's
distance exceeds the heap's current maximum; otherwise visit every
not-yet-visited neighbor of the popped vertex, mark it visited, push it to
the candidates and admit it to the result heap, evicting the farthest when
the size exceeds ef.  Return the heap members by ascending distance. -/
noncomputable def SearchLayerSpec (nsw : NSW) (vertices : List Vec) (base : Vec)
    (ef : ℕ) (entry_points : List ℕ) : List ℕ :=
  let seed := entry_points.foldl
    (fun (acc : List (ℝ × ℕ)) ep =>
      List.orderedInsert distOrder (specDist vertices nsw.dist_fn_ base ep, ep) acc)
    []
  let seedCapped := if ef < seed.length then seed.take ef else seed
  (searchLayerSpecLoop nsw.edges_ vertices nsw.dist_fn_ base ef
    (entry_points.length + vertices.length + 1) seed seedCapped entry_points).map (·.2)

/-- The `HNSWIndex` state: the shared vertex table and RID table
(hnsw_index.cpp lines 240-245), the layer stack, and the parameters parsed by
the constructor (lines 42-76). -/
structure HNSWIndex where
  vertices_ : List Vec
  rids_ : List RID
  layers_ : List NSW
  ef_construction_ : ℕ
  ef_search_ : ℕ
  m_ : ℕ
  m_max_ : ℕ
  m_max_0_ : ℕ
  distance_fn_ : VectorExpressionType

/-- Descent loop of `HNSWIndex::ScanVectorKey` (hnsw_index.cpp lines
283-286): `while (i > 0) entry_points = layers_[i--].SearchLayer(base_vector,
limit, entry_points)` — note that the candidate-set size passed at every
layer is `limit`. -/
noncomputable def scanDescent (st : HNSWIndex) (base : Vec) (limit : ℕ) :
    ℕ → List ℕ → Option (List ℕ)
  | 0, eps => some eps
  | i + 1, eps => do
    let layer ← st.layers_.get? (i + 1)
    let eps2 ← layer.SearchLayer st.vertices_ base limit eps
    scanDescent st base limit i eps2

/-- `HNSWIndex::ScanVectorKey` (hnsw_index.cpp lines 278-298): start from the
top layer's default entry point (no empty-index check), descend to layer 1,
search layer 0 — both with candidate-set size `limit` — and map the returned
vertex ids to RIDs. -/
noncomputable def HNSWIndex.ScanVectorKey (st : HNSWIndex) (base_vector : Vec)
    (limit : ℕ) : Option (List RID) := do
  let top ← st.layers_.getLast?
  let ep ← top.DefaultEntryPoint
  let eps ← scanDescent st base_vector limit (st.layers_.length - 1) [ep]
  let layer0 ← st.layers_.get? 0
  let ids ← layer0.SearchLayer st.vertices_ base_vector limit eps
  ids.mapM fun id => st.rids_.get? id

/-! ## C1: the layer search is not the claimed min-heap greedy search -/

/-- Failing input for claim C1: a one-layer graph over three 1-d vectors with
inner-product distances 5 (vertex 0), 1 (vertex 1) and 9 (vertex 2) to the
query; vertex 0 is adjacent to both others. -/
noncomputable def c1Vertices : List Vec := [[-5], [-1], [-9]]

/-- Layer searched by the C1 counterexample. -/
noncomputable def c1Layer : NSW :=
  { in_vertices_ := [0, 1, 2],
    edges_ := fun n =>
      if n = 0 then [1, 2] else if n = 1 then [0] else if n = 2 then [0] else [],
    dist_fn_ := .InnerProduct,
    m_max_ := 4 }

/-- Claim C1 (code_bug): with `ef = 1`, entry point 0, the source
`NSW::SearchLayer` returns vertex 0 (distance 5), while the search the claim
describes returns vertex 1 (distance 1): the source pops a plain FIFO queue
instead of the candidate nearest to the query, and it visits only the
neighbors selected by `SelectNeighbors(..., ef, ...)` — here the single
farthest neighbor, vertex 2 — instead of every not-yet-visited neighbor, so
the near vertex 1 is never admitted to the result heap. -/
theorem c1_searchlayer_is_not_the_greedy_search :
    c1Layer.SearchLayer c1Vertices [1] 1 [0] = some [0] ∧
    SearchLayerSpec c1Layer c1Vertices [1] 1 [0] = [1] ∧
    SelectNeighbors [1] [1, 2] c1Vertices 1 VectorExpressionType.InnerProduct =
      some [2] := by
  refine ⟨?_, ?_, ?_⟩
  · simp only [NSW.SearchLayer, c1Layer, c1Vertices, seedEntryPoint, searchLayerLoop,
      processNeighbor, SelectNeighbors, ComputeDistance, innerSum, distOrder,
      List.orderedInsert, List.mapM, List.mapM.loop, List.foldlM]
    norm_num [List.orderedInsert, distOrder, searchLayerLoop, processNeighbor,
      SelectNeighbors, List.mapM, List.mapM.loop, List.foldlM, ComputeDistance,
      innerSum, min_dblMax_eq]
  · simp only [SearchLayerSpec, c1Layer, c1Vertices, searchLayerSpecLoop, specDist,
      ComputeDistance, innerSum, distOrder, List.orderedInsert]
    norm_num [searchLayerSpecLoop, specDist, ComputeDistance, innerSum, distOrder,
      List.orderedInsert]
  · simp only [SelectNeighbors, c1Vertices, ComputeDistance, innerSum, distOrder,
      List.orderedInsert, List.mapM, List.mapM.loop]
    norm_num [List.orderedInsert, distOrder, List.mapM, List.mapM.loop,
      ComputeDistance, innerSum]

/-! ## C6: the scan passes `limit` as the candidate-set size at every layer -/

/-- Modelled from the spec, for claim C6: the descent the claim states —
`SearchLayer` (the source routine) run with `ef = 1` at every layer above 0. -/
noncomputable def specScanDescent (st : HNSWIndex) (base : Vec) :
    ℕ → List ℕ → Option (List ℕ)
  | 0, eps => some eps
  | i + 1, eps => do
    let layer ← st.layers_.get? (i + 1)
    let eps2 ← layer.SearchLayer st.vertices_ base 1 eps
    specScanDescent st base i eps2

/-- Modelled from the spec, for claim C6: the scan schedule the claim states —
descend from the top layer to layer 1 with `ef = 1`, then search layer 0 with
`ef = max(ef_search, limit)`; everything else (the `SearchLayer` routine, the
entry point, the RID mapping) is the source's. -/
noncomputable def HNSWIndex.ScanSpecSchedule (st : HNSWIndex) (base_vector : Vec)
    (limit : ℕ) : Option (List RID) := do
  let top ← st.layers_.getLast?
  let ep ← top.DefaultEntryPoint
  let eps ← specScanDescent st base_vector (st.layers_.length - 1) [ep]
  let layer0 ← st.layers_.get? 0
  let ids ← layer0.SearchLayer st.vertices_ base_vector (max st.ef_search_ limit) eps
  ids.mapM fun id => st.rids_.get? id

/-- Vertex table of the C6 failing input: four 1-d vectors with inner-product
distances 5, 4, 1, 2 to the query `[1]`. -/
noncomputable def c6Vertices : List Vec := [[-5], [-4], [-1], [-2]]

/-- Layer 0 of the C6 failing input: two components, {0, 2} and {1, 3}. -/
noncomputable def c6Layer0 : NSW :=
  { in_vertices_ := [0, 1, 2, 3],
    edges_ := fun n =>
      if n = 0 then [2] else if n = 2 then [0] else
      if n = 1 then [3] else if n = 3 then [1] else [],
    dist_fn_ := .InnerProduct, m_max_ := 16 }

/-- Layer 1 of the C6 failing input: vertices 0 and 1, connected. -/
noncomputable def c6Layer1 : NSW :=
  { in_vertices_ := [0, 1],
    edges_ := fun n => if n = 0 then [1] else if n = 1 then [0] else [],
    dist_fn_ := .InnerProduct, m_max_ := 4 }

/-- Failing input for claim C6. -/
noncomputable def c6State : HNSWIndex :=
  { vertices_ := c6Vertices,
    rids_ := [100, 101, 102, 103],
    layers_ := [c6Layer0, c6Layer1],
    ef_construction_ := 4, ef_search_ := 2, m_ := 4, m_max_ := 4, m_max_0_ := 16,
    distance_fn_ := .InnerProduct }

set_option maxHeartbeats 6400000 in
lemma c6_code_layer1 : c6Layer1.SearchLayer c6Vertices [1] 2 [0] = some [1, 0] := by
  simp only [NSW.SearchLayer, c6Layer1, c6Vertices, seedEntryPoint, searchLayerLoop,
    processNeighbor, SelectNeighbors, ComputeDistance, innerSum, distOrder,
    List.orderedInsert, List.mapM, List.mapM.loop, List.foldlM]
  norm_num [List.orderedInsert, distOrder, searchLayerLoop, processNeighbor,
    seedEntryPoint, SelectNeighbors, List.mapM, List.mapM.loop, List.foldlM,
    ComputeDistance, innerSum, min_dblMax_eq]

set_option maxHeartbeats 6400000 in
lemma c6_code_layer0 : c6Layer0.SearchLayer c6Vertices [1] 2 [1, 0] = some [2, 3] := by
  simp only [NSW.SearchLayer, c6Layer0, c6Vertices, seedEntryPoint, searchLayerLoop,
    processNeighbor, SelectNeighbors, ComputeDistance, innerSum, distOrder,
    List.orderedInsert, List.mapM, List.mapM.loop, List.foldlM]
  norm_num [List.orderedInsert, distOrder, searchLayerLoop, processNeighbor,
    seedEntryPoint, SelectNeighbors, List.mapM, List.mapM.loop, List.foldlM,
    ComputeDistance, innerSum, min_dblMax_eq]

set_option maxHeartbeats 6400000 in
lemma c6_spec_layer1 : c6Layer1.SearchLayer c6Vertices [1] 1 [0] = some [1] := by
  simp only [NSW.SearchLayer, c6Layer1, c6Vertices, seedEntryPoint, searchLayerLoop,
    processNeighbor, SelectNeighbors, ComputeDistance, innerSum, distOrder,
    List.orderedInsert, List.mapM, List.mapM.loop, List.foldlM]
  norm_num [List.orderedInsert, distOrder, searchLayerLoop, processNeighbor,
    seedEntryPoint, SelectNeighbors, List.mapM, List.mapM.loop, List.foldlM,
    ComputeDistance, innerSum, min_dblMax_eq]

set_option maxHeartbeats 6400000 in
lemma c6_spec_layer0 : c6Layer0.SearchLayer c6Vertices [1] 2 [1] = some [3, 1] := by
  simp only [NSW.SearchLayer, c6Layer0, c6Vertices, seedEntryPoint, searchLayerLoop,
    processNeighbor, SelectNeighbors, ComputeDistance, innerSum, distOrder,
    List.orderedInsert, List.mapM, List.mapM.loop, List.foldlM]
  norm_num [List.orderedInsert, distOrder, searchLayerLoop, processNeighbor,
    seedEntryPoint, SelectNeighbors, List.mapM, List.mapM.loop, List.foldlM,
    ComputeDistance, innerSum, min_dblMax_eq]

lemma c6_entry_point : c6Layer1.DefaultEntryPoint = some 0 := by
  simp [c6Layer1, NSW.DefaultEntryPoint]

/-- Claim C6 (code_bug): on `c6State` with `limit = 2` and `ef_search = 2`,
the source scan — which passes `limit` as the candidate-set size at every
layer including the descent — returns RIDs 102, 103, while the schedule the
claim states (`ef = 1` during the descent, `ef = max(ef_search, limit)` at
layer 0) returns RIDs 103, 101: descending with `ef = limit` keeps two entry
points alive, so the source reaches both layer-0 components while the claimed
single-entry-point descent reaches only one. -/
theorem c6_scan_schedule_diverges :
    c6State.ScanVectorKey [1] 2 = some [102, 103] ∧
    c6State.ScanSpecSchedule [1] 2 = some [103, 101] := by
  constructor
  · simp [HNSWIndex.ScanVectorKey, c6State, scanDescent, c6_entry_point,
      c6_code_layer1, c6_code_layer0, List.mapM, List.mapM.loop]
  · simp [HNSWIndex.ScanSpecSchedule, c6State, specScanDescent, c6_entry_point,
      c6_spec_layer1, c6_spec_layer0, List.mapM, List.mapM.loop]

/-! ## C8: a scan on an index holding no points -/

/-- An IVFFlat index on which build was a no-op (|data| < lists): both the
centroid array and the buckets are empty. -/
noncomputable def emptyIVF : IVFFlatIndex :=
  { lists_ := 3, probe_lists_ := 2, distance_fn_ := .L2Dist,
    centroids_ := [], centroids_buckets_ := [] }

/-- An HNSW index on which nothing was inserted: the constructor's single
layer 0 exists but holds no vertex, and the vertex table is empty. -/
noncomputable def emptyHNSW : HNSWIndex :=
  { vertices_ := [], rids_ := [],
    layers_ := [{ in_vertices_ := [], edges_ := fun _ => [],
                  dist_fn_ := .L2Dist, m_max_ := 16 }],
    ef_construction_ := 4, ef_search_ := 2, m_ := 4, m_max_ := 4, m_max_0_ := 16,
    distance_fn_ := .L2Dist }

/-- Claim C8 (code_bug): the IVFFlat scan on an empty index does return the
empty list for every query and limit, but the HNSW scan has no empty-index
check: it reads an entry point from the empty layer 0 and would index the
empty vertex table — undefined behaviour, modelled as `none`, not an empty
result list. -/
theorem c8_empty_index_scan :
    (∀ q k, (emptyIVF.ScanVectorKey q k).2 = []) ∧
    emptyHNSW.ScanVectorKey [1] 3 = none := by
  constructor
  · intro q k
    simp [IVFFlatIndex.ScanVectorKey, IVFFlatIndex.sortedLocalResults,
      IVFFlatIndex.localResults, IVFFlatIndex.FindNearestCentroids, emptyIVF]
  · simp [HNSWIndex.ScanVectorKey, emptyHNSW, NSW.DefaultEntryPoint]

/-! ## C2, counterexample: scan size is not min(k, n) and limit 0 is not
always empty -/

/-- Counterexample state for claim C2, IVFFlat half: two points in two
buckets, but only `probe_lists_ = 1` bucket is probed. -/
noncomputable def c2IVF : IVFFlatIndex :=
  { lists_ := 2, probe_lists_ := 1, distance_fn_ := .L2Dist,
    centroids_ := [[0], [4]],
    centroids_buckets_ := [[([0], 10)], [([4], 11)]] }

/-- Counterexample state for claim C2, HNSW half: a single vertex with RID 7. -/
noncomputable def c2HNSW : HNSWIndex :=
  { vertices_ := [[-5]], rids_ := [7],
    layers_ := [{ in_vertices_ := [0], edges_ := fun _ => [],
                  dist_fn_ := .InnerProduct, m_max_ := 16 }],
    ef_construction_ := 4, ef_search_ := 2, m_ := 4, m_max_ := 4, m_max_0_ := 16,
    distance_fn_ := .InnerProduct }

/-- Counterexample for claim C2: the IVFFlat index `c2IVF` holds n = 2 points
yet `scan(q, 2)` returns a single RID (only the probed bucket is scanned), so
`|scan(q, k)| = min(k, n)` fails; and the HNSW scan with `limit = 0` returns
the entry point's RID 7, not the empty list. -/
theorem c2_scan_size_counterexample :
    ((c2IVF.ScanVectorKey [0] 2).2).length = 1 ∧
    (c2IVF.centroids_buckets_.map List.length).sum = 2 ∧
    (1 : ℕ) ≠ min 2 2 ∧
    c2HNSW.ScanVectorKey [1] 0 = some [7] := by
  refine ⟨?_, by simp [c2IVF], by norm_num, ?_⟩
  · simp [IVFFlatIndex.ScanVectorKey, IVFFlatIndex.sortedLocalResults,
      IVFFlatIndex.localResults,
      IVFFlatIndex.FindNearestCentroids, List.enum, c2IVF, ComputeDistance,
      l2SqSum, pairLe, distLe, List.mergeSort, List.merge]
  · simp only [HNSWIndex.ScanVectorKey, c2HNSW, scanDescent, NSW.SearchLayer,
      NSW.DefaultEntryPoint, seedEntryPoint, searchLayerLoop, processNeighbor,
      SelectNeighbors, ComputeDistance, innerSum, distOrder, List.orderedInsert,
      List.mapM, List.mapM.loop, List.foldlM]
    norm_num [List.orderedInsert, distOrder, searchLayerLoop, processNeighbor,
      seedEntryPoint, SelectNeighbors, List.mapM, List.mapM.loop, List.foldlM,
      ComputeDistance, innerSum, scanDescent, min_dblMax_eq]

/-! ## C2, amended: shape of the scan results

Helper lemmas for the amended claim: the IVFFlat scan returns exactly
min(limit, candidates-in-probed-buckets) RIDs in non-decreasing distance
order, and an HNSW layer search returns its vertex ids in non-decreasing
distance order with at most max(|entry points|, ef) of them, so a completed
scan returns at most max(1, limit) RIDs. -/

lemma distLe_trans : ∀ a b c : ℝ × RID, distLe a b = true → distLe b c = true → distLe a c = true := by
  intro a b c h1 h2
  simp only [distLe, decide_eq_true_eq] at *
  exact le_trans h1 h2

lemma distLe_total : ∀ a b : ℝ × RID, (distLe a b || distLe b a) = true := by
  intro a b
  simp only [distLe, Bool.or_eq_true, decide_eq_true_eq]
  exact le_total a.1 b.1

lemma sortedLocalResults_sorted (st : IVFFlatIndex) (q : Vec) :
    ((st.sortedLocalResults q).map (·.1)).Sorted (· ≤ ·) := by
  have h := List.sorted_mergeSort distLe_trans distLe_total (st.localResults q)
  rw [List.Sorted, List.pairwise_map]
  exact h.imp (by intro a b hab; simpa [distLe] using hab)

lemma scan_length (st : IVFFlatIndex) (q : Vec) (k : ℕ) :
    (st.ScanVectorKey q k).2.length = min k (st.localResults q).length := by
  simp [IVFFlatIndex.ScanVectorKey, IVFFlatIndex.sortedLocalResults,
    List.length_take, List.length_mergeSort]

instance : IsTrans (ℝ × ℕ) distOrder := ⟨fun _ _ _ h1 h2 => le_trans h1 h2⟩

instance : IsTotal (ℝ × ℕ) distOrder := ⟨fun a b => le_total a.1 b.1⟩

/-- Every result-heap entry pairs a vertex id with its distance to the query. -/
def DistCorrect (vertices : List Vec) (dist_fn : VectorExpressionType) (base : Vec)
    (l : List (ℝ × ℕ)) : Prop :=
  ∀ e ∈ l, ∃ v, vertices.get? e.2 = some v ∧ e.1 = ComputeDistance base v dist_fn

lemma DistCorrect.insert {vertices dist_fn base l} {nbr : ℕ} {v : Vec}
    (hd : DistCorrect vertices dist_fn base l) (hv : vertices.get? nbr = some v) :
    DistCorrect vertices dist_fn base
      (List.orderedInsert distOrder (ComputeDistance base v dist_fn, nbr) l) := by
  intro e he
  rw [List.mem_orderedInsert] at he
  rcases he with rfl | he
  · exact ⟨v, hv, rfl⟩
  · exact hd e he

lemma DistCorrect.sublist {vertices dist_fn base} {l l2 : List (ℝ × ℕ)}
    (hd : DistCorrect vertices dist_fn base l) (hsub : l2.Sublist l) :
    DistCorrect vertices dist_fn base l2 :=
  fun e he => hd e (hsub.mem he)

lemma processNeighbor_inv {vertices : List Vec} {dist_fn : VectorExpressionType}
    {base : Vec} {limit : ℕ} {st st2 : SLState} {nbr : ℕ}
    (h : processNeighbor vertices dist_fn base limit st nbr = some st2)
    (hs : List.Sorted distOrder st.result)
    (hd : DistCorrect vertices dist_fn base st.result) :
    List.Sorted distOrder st2.result ∧ DistCorrect vertices dist_fn base st2.result ∧
      st2.result.length ≤ max st.result.length limit := by
  unfold processNeighbor at h
  split at h
  · cases h
    exact ⟨hs, hd, le_max_left _ _⟩
  · cases hv : vertices.get? nbr with
    | none => rw [hv] at h; simp at h
    | some v =>
      rw [hv] at h
      simp only [Option.bind_eq_bind, Option.some_bind] at h
      have hs1 : List.Sorted distOrder
          (List.orderedInsert distOrder (ComputeDistance base v dist_fn, nbr) st.result) :=
        hs.orderedInsert _ _
      have hd1 := hd.insert hv
      have hlen1 : (List.orderedInsert distOrder
          (ComputeDistance base v dist_fn, nbr) st.result).length = st.result.length + 1 :=
        List.orderedInsert_length distOrder st.result _
      split at h
      · -- result exceeded limit: dropLast
        rename_i hgt
        have hs2 := hs1.sublist (List.dropLast_sublist _)
        have hd2 := hd1.sublist (List.dropLast_sublist _)
        split at h
        · cases hm : (List.orderedInsert distOrder
              (ComputeDistance base v dist_fn, nbr) st.result).dropLast.getLast? with
          | none => rw [hm] at h; exact Option.noConfusion h
          | some m =>
            rw [hm] at h
            cases h
            refine ⟨hs2, hd2, ?_⟩
            simp only [List.length_dropLast, hlen1]
            omega
        · cases h
          refine ⟨hs2, hd2, ?_⟩
          simp only [List.length_dropLast, hlen1]
          omega
      · -- kept as is: length stayed within limit
        rename_i hle
        rw [hlen1] at hle
        split at h
        · cases hm : (List.orderedInsert distOrder
              (ComputeDistance base v dist_fn, nbr) st.result).getLast? with
          | none => rw [hm] at h; exact Option.noConfusion h
          | some m =>
            rw [hm] at h
            cases h
            exact ⟨hs1, hd1, by rw [hlen1]; omega⟩
        · cases h
          exact ⟨hs1, hd1, by rw [hlen1]; omega⟩



lemma foldlM_processNeighbor_inv {vertices : List Vec} {dist_fn : VectorExpressionType}
    {base : Vec} {limit : ℕ} :
    ∀ (ns : List ℕ) (st st2 : SLState),
      ns.foldlM (processNeighbor vertices dist_fn base limit) st = some st2 →
      List.Sorted distOrder st.result → DistCorrect vertices dist_fn base st.result →
      List.Sorted distOrder st2.result ∧ DistCorrect vertices dist_fn base st2.result ∧
        st2.result.length ≤ max st.result.length limit
  | [], st, st2, h, hs, hd => by
    cases h
    exact ⟨hs, hd, le_max_left _ _⟩
  | n :: ns, st, st2, h, hs, hd => by
    rw [List.foldlM_cons] at h
    cases hp : processNeighbor vertices dist_fn base limit st n with
    | none => rw [hp] at h; exact Option.noConfusion h
    | some st1 =>
      rw [hp] at h
      obtain ⟨s1, d1, l1⟩ := processNeighbor_inv hp hs hd
      obtain ⟨s2, d2, l2⟩ := foldlM_processNeighbor_inv ns st1 st2 h s1 d1
      exact ⟨s2, d2, by omega⟩

lemma seedEntryPoint_inv {vertices : List Vec} {dist_fn : VectorExpressionType}
    {base : Vec} {limit : ℕ} {st st2 : SLState} {ep : ℕ}
    (h : seedEntryPoint vertices dist_fn base limit st ep = some st2)
    (hs : List.Sorted distOrder st.result)
    (hd : DistCorrect vertices dist_fn base st.result) :
    List.Sorted distOrder st2.result ∧ DistCorrect vertices dist_fn base st2.result ∧
      st2.result.length = st.result.length + 1 := by
  unfold seedEntryPoint at h
  cases hv : vertices.get? ep with
  | none => rw [hv] at h; exact Option.noConfusion h
  | some v =>
    rw [hv] at h
    simp only [Option.bind_eq_bind, Option.some_bind] at h
    have hs1 : List.Sorted distOrder
        (List.orderedInsert distOrder (ComputeDistance base v dist_fn, ep) st.result) :=
      hs.orderedInsert _ _
    have hd1 := hd.insert hv
    have hlen1 : (List.orderedInsert distOrder
        (ComputeDistance base v dist_fn, ep) st.result).length = st.result.length + 1 :=
      List.orderedInsert_length distOrder st.result _
    split at h
    · cases hm : (List.orderedInsert distOrder
          (ComputeDistance base v dist_fn, ep) st.result).getLast? with
      | none => rw [hm] at h; exact Option.noConfusion h
      | some m =>
        rw [hm] at h
        cases h
        exact ⟨hs1, hd1, hlen1⟩
    · cases h
      exact ⟨hs1, hd1, hlen1⟩

lemma foldlM_seed_inv {vertices : List Vec} {dist_fn : VectorExpressionType}
    {base : Vec} {limit : ℕ} :
    ∀ (eps : List ℕ) (st st2 : SLState),
      eps.foldlM (seedEntryPoint vertices dist_fn base limit) st = some st2 →
      List.Sorted distOrder st.result → DistCorrect vertices dist_fn base st.result →
      List.Sorted distOrder st2.result ∧ DistCorrect vertices dist_fn base st2.result ∧
        st2.result.length = st.result.length + eps.length
  | [], st, st2, h, hs, hd => by
    cases h
    exact ⟨hs, hd, by simp⟩
  | e :: eps, st, st2, h, hs, hd => by
    rw [List.foldlM_cons] at h
    cases hp : seedEntryPoint vertices dist_fn base limit st e with
    | none => rw [hp] at h; exact Option.noConfusion h
    | some st1 =>
      rw [hp] at h
      obtain ⟨s1, d1, l1⟩ := seedEntryPoint_inv hp hs hd
      obtain ⟨s2, d2, l2⟩ := foldlM_seed_inv eps st1 st2 h s1 d1
      refine ⟨s2, d2, ?_⟩
      rw [l2, l1]
      simp
      omega



lemma searchLayerLoop_inv {edges : ℕ → List ℕ} {vertices : List Vec}
    {dist_fn : VectorExpressionType} {base : Vec} {limit : ℕ} :
    ∀ (fuel : ℕ) (st : SLState) (res : List (ℝ × ℕ)) (B : ℕ),
      searchLayerLoop edges vertices dist_fn base limit fuel st = some res →
      List.Sorted distOrder st.result → DistCorrect vertices dist_fn base st.result →
      st.result.length ≤ B → limit ≤ B →
      List.Sorted distOrder res ∧ DistCorrect vertices dist_fn base res ∧ res.length ≤ B
  | 0, st, res, B, h, _, _, _, _ => Option.noConfusion h
  | fuel + 1, st, res, B, h, hs, hd, hB, hlim => by
    unfold searchLayerLoop at h
    cases hq : st.queue with
    | nil =>
      rw [hq] at h
      cases h
      exact ⟨hs, hd, hB⟩
    | cons curr rest =>
      rw [hq] at h
      dsimp only at h
      cases hn : SelectNeighbors base (edges curr) vertices limit dist_fn with
      | none => rw [hn] at h; exact Option.noConfusion h
      | some nearest =>
        rw [hn] at h
        simp only [Option.bind_eq_bind, Option.some_bind] at h
        cases hf : nearest.foldlM (processNeighbor vertices dist_fn base limit)
            { st with queue := rest } with
        | none => rw [hf] at h; exact Option.noConfusion h
        | some st1 =>
          rw [hf] at h
          obtain ⟨s1, d1, l1⟩ := foldlM_processNeighbor_inv nearest _ st1 hf hs hd
          simp only [Option.some_bind] at h
          split at h
          · cases h
            exact ⟨s1, d1, by simp at l1; omega⟩
          · exact searchLayerLoop_inv fuel st1 res B h s1 d1 (by simp at l1; omega) hlim

lemma SearchLayer_shape {nsw : NSW} {vertices : List Vec} {base : Vec} {limit : ℕ}
    {eps ids : List ℕ}
    (h : nsw.SearchLayer vertices base limit eps = some ids) :
    (ids.map (specDist vertices nsw.dist_fn_ base)).Sorted (· ≤ ·) ∧
      ids.length ≤ max eps.length limit := by
  unfold NSW.SearchLayer at h
  dsimp only at h
  cases hseed : eps.foldlM (seedEntryPoint vertices nsw.dist_fn_ base limit)
      { queue := [], result := [], visited := [],
        maxResultDist := dblMin, minCandidateDist := dblMax } with
  | none => rw [hseed] at h; exact Option.noConfusion h
  | some sted =>
    rw [hseed] at h
    simp only [Option.bind_eq_bind, Option.some_bind] at h
    obtain ⟨ss, sd, sl⟩ := foldlM_seed_inv eps _ sted hseed (by simp) (by intro e he; simp at he)
    cases hloop : searchLayerLoop nsw.edges_ vertices nsw.dist_fn_ base limit
        (eps.length + vertices.length + 1) sted with
    | none => rw [hloop] at h; exact Option.noConfusion h
    | some res =>
      rw [hloop] at h
      obtain ⟨rs, rd, rl⟩ := searchLayerLoop_inv _ sted res (max eps.length limit) hloop
        ss sd (by simp at sl; omega) (le_max_right _ _)
      cases h
      constructor
      · have hmap : (res.map (·.2)).map (specDist vertices nsw.dist_fn_ base) =
            res.map (·.1) := by
          rw [List.map_map]
          apply List.map_congr_left
          intro e he
          obtain ⟨v, hv, hdist⟩ := rd e he
          simp only [Function.comp_apply, specDist]
          rw [List.getD_eq_getElem?_getD, ← List.get?_eq_getElem?, hv]
          simp [hdist]
        rw [hmap, List.Sorted, List.pairwise_map]
        exact rs
      · simpa using rl



lemma mapM_some_length {α β : Type} (f : α → Option β) :
    ∀ (l : List α) (res : List β), l.mapM f = some res → res.length = l.length := by
  intro l
  induction l with
  | nil => intro res h; cases h; rfl
  | cons a as ih =>
    intro res h
    rw [List.mapM_cons] at h
    cases hfa : f a with
    | none => rw [hfa] at h; exact Option.noConfusion h
    | some b =>
      rw [hfa] at h
      simp only [Option.bind_eq_bind, Option.some_bind] at h
      cases hrest : as.mapM f with
      | none => rw [hrest] at h; exact Option.noConfusion h
      | some bs =>
        rw [hrest] at h
        simp only [Option.bind_eq_bind, Option.some_bind] at h
        cases h
        simp [ih bs hrest]

lemma scanDescent_length {st : HNSWIndex} {base : Vec} {limit : ℕ} :
    ∀ (i : ℕ) (eps eps2 : List ℕ), scanDescent st base limit i eps = some eps2 →
      eps2.length ≤ max eps.length limit
  | 0, eps, eps2, h => by
    cases h
    exact le_max_left _ _
  | i + 1, eps, eps2, h => by
    unfold scanDescent at h
    cases hl : st.layers_.get? (i + 1) with
    | none => rw [hl] at h; exact Option.noConfusion h
    | some layer =>
      rw [hl] at h
      simp only [Option.bind_eq_bind, Option.some_bind] at h
      cases hsl : layer.SearchLayer st.vertices_ base limit eps with
      | none => rw [hsl] at h; exact Option.noConfusion h
      | some eps1 =>
        rw [hsl] at h
        simp only [Option.bind_eq_bind, Option.some_bind] at h
        have h1 := (SearchLayer_shape hsl).2
        have h2 := scanDescent_length i eps1 eps2 h
        omega

lemma hnsw_scan_length {st : HNSWIndex} {q : Vec} {k : ℕ} {l : List RID}
    (h : st.ScanVectorKey q k = some l) : l.length ≤ max 1 k := by
  unfold HNSWIndex.ScanVectorKey at h
  cases ht : st.layers_.getLast? with
  | none => rw [ht] at h; exact Option.noConfusion h
  | some top =>
    rw [ht] at h
    simp only [Option.bind_eq_bind, Option.some_bind] at h
    cases hep : top.DefaultEntryPoint with
    | none => rw [hep] at h; exact Option.noConfusion h
    | some ep =>
      rw [hep] at h
      simp only [Option.some_bind] at h
      cases hd : scanDescent st q k (st.layers_.length - 1) [ep] with
      | none => rw [hd] at h; exact Option.noConfusion h
      | some eps =>
        rw [hd] at h
        simp only [Option.some_bind] at h
        cases hl0 : st.layers_.get? 0 with
        | none => rw [hl0] at h; exact Option.noConfusion h
        | some layer0 =>
          rw [hl0] at h
          simp only [Option.some_bind] at h
          cases hids : layer0.SearchLayer st.vertices_ q k eps with
          | none => rw [hids] at h; exact Option.noConfusion h
          | some ids =>
            rw [hids] at h
            simp only [Option.some_bind] at h
            have h1 := scanDescent_length (st.layers_.length - 1) [ep] eps hd
            have h2 := (SearchLayer_shape hids).2
            have h3 := mapM_some_length _ ids l h
            simp at h1
            omega

/-- Claim C2, amended (corrected): for every query and limit, the IVFFlat
scan returns exactly `min(limit, c)` RIDs, where `c` counts the entries of
the probed buckets, the distance column of the sorted candidate list is
non-decreasing, and the scan output is the RID column of its first
`min(limit, c)` entries (in particular `limit = 0` returns the empty list);
every completed HNSW layer search lists its vertices in non-decreasing
distance order — in particular the layer-0 result, whose RIDs the scan emits
in the same order — with at most `max(|entry points|, ef)` of them, and a
completed HNSW scan returns at most `max(1, limit)` RIDs. -/
theorem c2_scan_shape :
    (∀ (st : IVFFlatIndex) (q : Vec) (k : ℕ),
        (st.ScanVectorKey q k).2.length = min k (st.localResults q).length ∧
        ((st.sortedLocalResults q).map (·.1)).Sorted (· ≤ ·) ∧
        (st.ScanVectorKey q k).2 =
          ((st.sortedLocalResults q).take
            (min k (st.sortedLocalResults q).length)).map (·.2) ∧
        (st.ScanVectorKey q 0).2 = []) ∧
    (∀ (nsw : NSW) (vertices : List Vec) (base : Vec) (limit : ℕ) (eps ids : List ℕ),
        nsw.SearchLayer vertices base limit eps = some ids →
        (ids.map (specDist vertices nsw.dist_fn_ base)).Sorted (· ≤ ·) ∧
        ids.length ≤ max eps.length limit) ∧
    (∀ (st : HNSWIndex) (q : Vec) (k : ℕ) (l : List RID),
        st.ScanVectorKey q k = some l → l.length ≤ max 1 k) := by
  refine ⟨fun st q k => ⟨scan_length st q k, sortedLocalResults_sorted st q, rfl, ?_⟩,
    fun nsw vertices base limit eps ids h => SearchLayer_shape h,
    fun st q k l h => hnsw_scan_length h⟩
  have h0 := scan_length st q 0
  simp only [Nat.zero_min] at h0
  exact List.length_eq_zero.mp h0

/-! ## C7: cosine distance and the missing zero-norm guard -/

lemma foldl_sq_nonneg (v : List ℝ) (a : ℝ) (h : 0 ≤ a) :
    0 ≤ v.foldl (fun acc x => acc + x ^ 2) a := by
  induction v generalizing a with
  | nil => simpa
  | cons x xs ih => exact ih _ (by positivity)

lemma sqSum_nonneg (v : Vec) : 0 ≤ sqSum v :=
  foldl_sq_nonneg v 0 le_rfl

/-- Claim C7 (code_bug): the cosine branch of `ComputeDistance` does compute
the claimed `1 − (Σ uᵢ·vᵢ) / (‖u‖·‖v‖)` (first conjunct, since
`sqrt(a·b) = sqrt(a)·sqrt(b)` for the nonnegative square-norm sums), but it
has no zero-norm guard: at the failing input `u = [0,0]`, `v = [1,0]` the
source's denominator `sqrt(left_distance * right_distance)` is 0 and its
numerator is 0 (second and third conjuncts), so the C++ evaluates
`1 - 0.0/0.0`, which is NaN under IEEE arithmetic — not the claimed 1.0. -/
theorem c7_cosine_zero_norm_unguarded :
    (∀ u v : Vec, ComputeDistance u v VectorExpressionType.CosineSimilarity =
      1 - innerSum u v / (Real.sqrt (sqSum u) * Real.sqrt (sqSum v))) ∧
    Real.sqrt (sqSum [0, 0] * sqSum [1, 0]) = 0 ∧
    innerSum [0, 0] [1, 0] = 0 := by
  refine ⟨fun u v => ?_, by simp [sqSum], by simp [innerSum]⟩
  simp [ComputeDistance, Real.sqrt_mul (sqSum_nonneg u)]

/-! ## C10: the IVFFlat scan mutates no index state -/

/-- Claim C10 (confirmed): `IVFFlatIndex::ScanVectorKey` assigns to no data
member — `centroids_`, `centroids_buckets_`, `lists_`, `probe_lists_` (and
the stored metric) are exactly what they were before the call; in the
state-passing model the returned state is the input state, for every query
and limit. -/
theorem c10_scan_is_read_only (st : IVFFlatIndex) (base_vector : Vec) (limit : ℕ) :
    (st.ScanVectorKey base_vector limit).1 = st := rfl

/-! ## Vector-index optimizer rule (vector_index_scan.cpp)

The rule inspects plans and expressions only through `GetChildren`,
`children_`, `GetChildAt`, dynamic casts and a few scalar fields; the
embedding keeps exactly those.  `operator[]` on a `std::vector` out of range
is undefined behaviour, modelled as `none`. -/

/-- Order-by direction (bound_order_by.h). -/
inductive OrderByType
  | ASC
  | DESC
  | DEFAULT
  | INVALID

/-- Column types, as far as `MatchVectorIndex` looks at them. -/
inductive TypeId
  | VECTOR
  | OTHER

/-- Index kinds distinguished by the rule. -/
inductive IndexType
  | VectorHNSWIndex
  | VectorIVFFlatIndex
  | OtherIndex

instance : DecidableEq IndexType := fun a b => by
  cases a <;> cases b <;> first
    | exact isTrue rfl
    | exact isFalse (by intro h; cases h)

/-- The fields of `IndexInfo` the rule reads. -/
structure IndexInfo where
  name_ : String
  index_oid_ : ℕ
  index_type_ : IndexType
  key_schema_cols_ : List TypeId

/-- The fields of `TableInfo` the rule reads. -/
structure TableInfo where
  name_ : String

/-- The catalog as the rule consumes it: `GetTable` by oid and
`GetTableIndexes` by table name. -/
structure Catalog where
  tables : ℕ → Option TableInfo
  tableIndexes : String → List IndexInfo

/-- Expressions, as far as the rule inspects them. -/
inductive Expr
  | columnValue (col_idx : ℕ)
  | constant (v : ℤ)
  | array (children : List Expr)
  | vector (fn : VectorExpressionType) (children : List Expr)
  | other (children : List Expr)

/-- `children_` of an `AbstractExpression`. -/
def Expr.childrenOf : Expr → List Expr
  | .columnValue _ => []
  | .constant _ => []
  | .array cs => cs
  | .vector _ cs => cs
  | .other cs => cs

/-- `AbstractExpression::GetChildAt(i)`: `children_[i]`, out of range is
undefined behaviour. -/
def Expr.GetChildAt (e : Expr) (i : ℕ) : Option Expr :=
  e.childrenOf.get? i

/-- Plan nodes, with the fields the rule reads; every other plan kind is
`other` (the rule treats them all alike). -/
inductive PlanNode
  | topn (n : ℕ) (order_bys : List (OrderByType × Expr)) (children : List PlanNode)
  | projection (expressions : List Expr) (children : List PlanNode)
  | seqScan (table_oid : ℕ) (children : List PlanNode)
  | vectorIndexScan (table_oid : ℕ) (index_oid : ℕ) (index_name : String)
      (base_vector : Expr) (limit : ℕ) (children : List PlanNode)
  | other (children : List PlanNode)

/-- Loop body of `MatchVectorIndex` (vector_index_scan.cpp lines 38-73): walk
the table's indexes; on a vector index whose checked column has type VECTOR,
select it according to `vector_index_match_method`, writing the index name
back into the by-reference string (the C++ overwrites the method string with
`index_info->name_` on success). -/
def matchLoop (dist_fn : VectorExpressionType) (col_idx : ℕ) (method : String) :
    List IndexInfo → Option IndexInfo × String
  | [] => (none, method)
  | info :: rest =>
    if col_idx < info.key_schema_cols_.length then
      if info.index_type_ = IndexType.VectorHNSWIndex ∨
         info.index_type_ = IndexType.VectorIVFFlatIndex then
        let column_is_vector :=
          match info.key_schema_cols_.getD col_idx TypeId.OTHER, dist_fn with
          | TypeId.VECTOR, _ => true
          | TypeId.OTHER, _ => false
        if column_is_vector then
          if method = "" ∨ method = "default" then (some info, info.name_)
          else if method = "hnsw" ∧ info.index_type_ = IndexType.VectorHNSWIndex then
            (some info, info.name_)
          else if method = "ivfflat" ∧ info.index_type_ = IndexType.VectorIVFFlatIndex then
            (some info, info.name_)
          else if method = "none" then (none, method)
          else matchLoop dist_fn col_idx method rest
        else matchLoop dist_fn col_idx method rest
      else matchLoop dist_fn col_idx method rest
    else matchLoop dist_fn col_idx method rest

/-- `MatchVectorIndex` (vector_index_scan.cpp lines 26-77). -/
def MatchVectorIndex (catalog : Catalog) (table_oid : ℕ) (col_idx : ℕ)
    (dist_fn : VectorExpressionType) (method : String) : Option IndexInfo × String :=
  match catalog.tables table_oid with
  | none => (none, method)
  | some table_info => matchLoop dist_fn col_idx method (catalog.tableIndexes table_info.name_)

/-- The projection scan of `OptimizeAsVectorIndexScan` (lines 131-137): the
last `VectorExpression` among the projection's expressions sets `dist_fn`,
which otherwise stays `L2Dist`. -/
def projectionDistFn (expressions : List Expr) : VectorExpressionType :=
  expressions.foldl
    (fun acc e => match e with
      | .vector fn _ => fn
      | _ => acc)
    VectorExpressionType.L2Dist

mutual

/-- `Optimizer::OptimizeAsVectorIndexScan` (vector_index_scan.cpp lines
81-176), statement by statement: recurse into every child first (the results
are collected into a local `children` vector that is never used afterwards,
so a non-matching node returns the original `plan`, not a rebuilt one);
return `SeqScan` and `Projection` nodes (and every non-`TopN` node)
unchanged; on a `TopN` node read `GetOrderBy()[0]`, its expression's
`children_[0]`, and `GetChildAt(i)` of that child for `i = 0` up to AND
INCLUDING `children_.size()` (the loop bound is `<=`) to build the base
vector, then rewrite to a `VectorIndexScan` when the child pattern and the
catalog match.  Each of those reads is out of range on real inputs and then
undefined behaviour, modelled as `none`. -/
def OptimizeAsVectorIndexScan (catalog : Catalog) (method : String) :
    PlanNode → Option PlanNode
  | .seqScan t cs => do
    let _ ← optimizeChildren catalog method cs
    some (.seqScan t cs)
  | .projection es cs => do
    let _ ← optimizeChildren catalog method cs
    some (.projection es cs)
  | .vectorIndexScan t oid nm bv lim cs => do
    let _ ← optimizeChildren catalog method cs
    some (.vectorIndexScan t oid nm bv lim cs)
  | .other cs => do
    let _ ← optimizeChildren catalog method cs
    some (.other cs)
  | .topn n obs cs => do
    let _ ← optimizeChildren catalog method cs
    let ob0 ← obs.get? 0
    let order_expr := ob0.2
    let child0 ← order_expr.childrenOf.get? 0
    let array_children ← (List.range (order_expr.childrenOf.length + 1)).mapM
      (fun i => child0.GetChildAt i)
    let base_vector := Expr.array array_children
    let c0 ← cs.get? 0
    let found : Option (Option (List Expr) × ℕ) :=
      match c0 with
      | .projection pes pcs =>
        match pcs.get? 0 with
        | some (.seqScan t _) => some (some pes, t)
        | some _ => none
        | none => none
      | .seqScan t _ => some (none, t)
      | _ => none
    match found with
    | none =>
      -- a Projection whose own child is missing is an out-of-range
      -- `GetChildAt(0)`: undefined behaviour
      match c0 with
      | .projection _ pcs => if pcs.length = 0 then none else some (.topn n obs cs)
      | _ => some (.topn n obs cs)
    | some (proj, table_oid) =>
      let dist_fn := match proj with
        | some pes => projectionDistFn pes
        | none => VectorExpressionType.L2Dist
      let method2 := if method = "" then "default" else method
      match MatchVectorIndex catalog table_oid 0 dist_fn method2 with
      | (some info, method3) =>
        let scan := PlanNode.vectorIndexScan table_oid info.index_oid_ method3
          base_vector n []
        match proj with
        | some pes => some (.projection pes [scan])
        | none => some scan
      | (none, _) => some (.topn n obs cs)

/-- The `for (child : plan->GetChildren())` recursion of
`OptimizeAsVectorIndexScan` (lines 85-87); the C++ collects the results into
a vector it never reads, so only failure propagates. -/
def optimizeChildren (catalog : Catalog) (method : String) :
    List PlanNode → Option (List PlanNode)
  | [] => some []
  | p :: ps => do
    let p2 ← OptimizeAsVectorIndexScan catalog method p
    let ps2 ← optimizeChildren catalog method ps
    some (p2 :: ps2)

end

/-- Failing input for claim C9: the canonical rewrite target itself — a TopN
node ordering by `l2_dist(column 0, ARRAY[1,2,3])` over a SeqScan. -/
def c9Plan : PlanNode :=
  .topn 3
    [(.ASC, .vector .L2Dist [.columnValue 0, .array [.constant 1, .constant 2, .constant 3]])]
    [.seqScan 0 []]

/-- Claim C9 (code_bug): `OptimizeAsVectorIndexScan` is not total — on the
canonical pattern it reads `GetChildAt(i)` of the order-by expression's first
child (here the column reference, which has no children) for every `i` up to
and including `children_.size()`, an out-of-range `std::vector` access
(undefined behaviour, `none` in the model), for every catalog and every
session match method. -/
theorem c9_optimizer_crashes_on_topn (catalog : Catalog) (method : String) :
    OptimizeAsVectorIndexScan catalog method c9Plan = none := by
  simp [c9Plan, OptimizeAsVectorIndexScan, optimizeChildren, Expr.GetChildAt,
    Expr.childrenOf, List.range, List.range.loop, List.mapM, List.mapM.loop]

end BusTub
